import Mathlib

/-!
Verification development for the VoiceKit assistant (`main2.py`).

Python strings are embedded as `List Char`.  The Python string methods used
by the program (`strip`, `lower`, `startswith`, `replace(old, new, 1)`,
`split()`, `split(" ", 1)`, substring containment) are modelled by the
`py*` functions below, faithful to CPython semantics on the inputs the
program handles.
-/

abbrev Str := List Char

/-- Python whitespace for `str.strip` / `str.split()` (the ASCII part). -/
def pyIsSpace (c : Char) : Bool :=
  c = ' ' || c = '\t' || c = '\n' || c = '\r' || c = Char.ofNat 11 || c = Char.ofNat 12

/-- Python `str.strip()`: drop whitespace from both ends. -/
def pyStrip (s : Str) : Str :=
  ((s.dropWhile pyIsSpace).reverse.dropWhile pyIsSpace).reverse

/-- Python `str.lower()` (ASCII-faithful model). -/
def pyLower (s : Str) : Str := s.map Char.toLower

/-- Python `s.replace(pat, rep, 1)`: replace the first occurrence of `pat`. -/
def pyReplaceFirst : Str → Str → Str → Str
  | [], pat, rep => if pat = [] then rep else []
  | c :: rest, pat, rep =>
    if pat.isPrefixOf (c :: rest) then rep ++ (c :: rest).drop pat.length
    else c :: pyReplaceFirst rest pat rep

/-- Accumulator for `pySplitWs`: current (reversed) word plus input. -/
def pySplitWsAux : Str → Str → List Str
  | [], acc => if acc = [] then [] else [acc.reverse]
  | c :: rest, acc =>
    if pyIsSpace c then
      if acc = [] then pySplitWsAux rest [] else acc.reverse :: pySplitWsAux rest []
    else pySplitWsAux rest (c :: acc)

/-- Python `str.split()` with no argument: split on whitespace runs. -/
def pySplitWs (s : Str) : List Str := pySplitWsAux s []

/-- Python substring containment `pat in s`. -/
def pyContains : Str → Str → Bool
  | pat, [] => pat.isPrefixOf []
  | pat, c :: rest => pat.isPrefixOf (c :: rest) || pyContains pat rest

/-- Python `s.split(" ", 1)[1] if " " in s else ""`. -/
def pySplitFirstRest (s : Str) : Str :=
  if (' ') ∈ s then (s.dropWhile (fun c => c ≠ ' ')).drop 1 else []

/-!
Data model.  `Intent` is the spec's `CommandIntent`; `Effect` records the
observable actions of `VoiceKitApp.handle_command_text` and of the helper
functions it calls (GUI log lines, status changes, speech, process launches,
URL opens, background threads, console prints).  `Env` packages the
platform-dependent externals the code consults (`os.name`, `shutil.which`,
process spawning, the Program Files scan, the Music folder, the clock).
-/

inductive Intent where
  | openApp (name : Str)
  | webSearch (topic : Str)
  | wikipedia (topic : Str)
  | playMusic
  | timeQuery
  | chat (prompt : Str)
deriving DecidableEq, Repr

inductive LaunchAction where
  | popenShell (cmd : Str)
  | popenArgv (args : List Str)
  | startfile (path : Str)
deriving DecidableEq, Repr

inductive Effect where
  | log (s : Str)
  | setStatus (s : Str)
  | speak (s : Str)
  | launch (a : LaunchAction)
  | openUrl (u : Str)
  | spawnWiki (topic : Str)
  | spawnChat (prompt : Str)
  | consoleLog (s : Str)
deriving DecidableEq, Repr

structure Env where
  isWindowsNT : Bool
  whichFound : Str → Bool
  launchOk : LaunchAction → Bool
  programFilesScan : Str → List Str
  musicDirExists : Bool
  musicDir : Str
  nowTimeStr : Str
  openUrlOk : Str → Bool

def openPfx : Str := ("open ").data
def searchPfx : Str := ("search ").data
def wikiPfx : Str := ("wikipedia ").data
def playMusicLit : Str := ("play music").data
def timeLit : Str := ("time").data
def chatPfx : Str := ("chat ").data
def talkPfx : Str := ("talk ").data
def cmdLogPfx : Str := ("Command: ").data
def openingStatusPfx : Str := ("Opening app: ").data
def searchStatusPfx : Str := ("Searching web: ").data
def wikiStatusPfx : Str := ("Searching Wikipedia: ").data
def googleUrlPfx : Str := ("https://www.google.com/search?q=").data
def chattingStatus : Str := ("Chatting...").data
def thinkingStatus : Str := ("Thinking...").data
def timeSpeakPfx : Str := ("The time is ").data
def openingPfx : Str := ("Opening ").data
def urlFailMsg : Str := ("Sorry, I couldn't open the website.").data
def openUrlErrLog : Str := ("Open URL error:").data
def mapFailLog : Str := ("Open mapped app failed:").data
def commonFailLog : Str := ("Open common app failed:").data
def pathFailLog : Str := ("Open PATH app failed:").data
def exeFailLog : Str := ("Open exe found failed:").data
def failedPfx : Str := ("Failed to open ").data
def dotSfx : Str := (".").data
def notFoundPfx : Str := ("Sorry, I can't find an app called ").data
def notFoundSfx : Str := (". You can add it from the UI.").data
def musicOpenMsg : Str := ("Opening your Music folder").data
def musicErrLog : Str := ("Play music error:").data
def musicFailMsg : Str := ("Couldn't open the music folder.").data
def musicNotFound : Str := ("Music folder not found.").data
def xdgOpenLit : Str := ("xdg-open").data

/-- The built-in alias table `common_commands` of `open_app_by_name`; a
`none` value models an alias with no resolvable command (the `vscode` entry
when `which("code")` fails). -/
def common_commands (env : Env) : List (Str × Option Str) :=
  [ (("notepad").data, some (if env.isWindowsNT then ("notepad").data else ("gedit").data)),
    (("calculator").data, some (if env.isWindowsNT then ("calc").data else ("gnome-calculator").data)),
    (("chrome").data, some (if env.isWindowsNT then ("start chrome").data else ("google-chrome").data)),
    (("firefox").data, some (if env.isWindowsNT then ("start firefox").data else ("firefox").data)),
    (("vscode").data, if env.whichFound (("code").data) then some (("code").data) else none),
    (("explorer").data, some (if env.isWindowsNT then ("explorer").data else ("nautilus").data)),
    (("file explorer").data, some (if env.isWindowsNT then ("explorer").data else ("nautilus").data)),
    (("spotify").data, some (if env.isWindowsNT then ("start spotify").data else ("spotify").data)) ]

/-- How a user-mapped command string is launched: `Popen(cmd, shell=True)`
on Windows, `Popen(cmd.split(), shell=False)` elsewhere. -/
def mappedAction (env : Env) (cmd : Str) : LaunchAction :=
  if env.isWindowsNT then LaunchAction.popenShell cmd
  else LaunchAction.popenArgv (pySplitWs cmd)

/-- Prepend a console print to a result (a `print` before falling through). -/
def withLog (s : Str) (r : Bool × List Effect) : Bool × List Effect :=
  (r.1, Effect.consoleLog s :: r.2)

/-- Final branch of `open_app_by_name`: nothing matched. -/
def notFoundResult (name : Str) : Bool × List Effect :=
  (false, [Effect.speak (notFoundPfx ++ name ++ notFoundSfx)])

/-- Windows-only Program Files scan fallback of `open_app_by_name`. -/
def scanFallback (env : Env) (name lname : Str) : Bool × List Effect :=
  if env.isWindowsNT = true then
    match env.programFilesScan lname with
    | p :: _ =>
      if env.launchOk (LaunchAction.popenShell p) = true then
        (true, [Effect.launch (LaunchAction.popenShell p), Effect.speak (openingPfx ++ name)])
      else withLog exeFailLog (notFoundResult name)
    | [] => notFoundResult name
  else notFoundResult name

/-- PATH-search fallback of `open_app_by_name` (`shutil.which`). -/
def pathFallback (env : Env) (name lname : Str) : Bool × List Effect :=
  if env.whichFound lname = true then
    if env.launchOk (LaunchAction.popenArgv [lname]) = true then
      (true, [Effect.launch (LaunchAction.popenArgv [lname]), Effect.speak (openingPfx ++ name)])
    else withLog pathFailLog (scanFallback env name lname)
  else scanFallback env name lname

/-- Built-in alias-table branch of `open_app_by_name`. -/
def aliasFallback (env : Env) (name lname : Str) : Bool × List Effect :=
  match List.lookup lname (common_commands env) with
  | some (some cmd) =>
    if env.launchOk (LaunchAction.popenShell cmd) = true then
      (true, [Effect.launch (LaunchAction.popenShell cmd), Effect.speak (openingPfx ++ name)])
    else withLog commonFailLog (pathFallback env name lname)
  | _ => pathFallback env name lname

/-- `open_app_by_name(name, app_map)`: returns the Python function's boolean
result together with its effect trace. -/
def open_app_by_name (env : Env) (name : Str) (app_map : List (Str × Str)) :
    Bool × List Effect :=
  let lname := pyStrip (pyLower name)
  match List.lookup lname app_map with
  | some cmd =>
    if env.launchOk (mappedAction env cmd) = true then
      (true, [Effect.launch (mappedAction env cmd), Effect.speak (openingPfx ++ name)])
    else (false, [Effect.consoleLog mapFailLog, Effect.speak (failedPfx ++ name ++ dotSfx)])
  | none => aliasFallback env name lname

/-- `safe_open_url(url)`: effect trace. -/
def safe_open_url (env : Env) (url : Str) : List Effect :=
  if env.openUrlOk url = true then
    [Effect.openUrl url, Effect.speak (openingPfx ++ url)]
  else [Effect.consoleLog openUrlErrLog, Effect.speak urlFailMsg]

/-- The launch used by the `play music` branch: `os.startfile` on Windows,
`Popen(["xdg-open", dir])` elsewhere. -/
def musicAction (env : Env) : LaunchAction :=
  if env.isWindowsNT then LaunchAction.startfile env.musicDir
  else LaunchAction.popenArgv [xdgOpenLit, env.musicDir]

/-- Effects of the `play music` branch of `handle_command_text`. -/
def playMusicEffects (env : Env) : List Effect :=
  if env.musicDirExists = true then
    if env.launchOk (musicAction env) = true then
      [Effect.launch (musicAction env), Effect.speak musicOpenMsg]
    else [Effect.consoleLog musicErrLog, Effect.speak musicFailMsg]
  else [Effect.speak musicNotFound]

/-- `VoiceKitApp.handle_command_text(command)`: the classified intent (the
spec's Command Interpreter result; `none` for blank input) paired with the
effect trace of the dispatch. -/
def handle_command_text (env : Env) (appMap : List (Str × Str)) (input : Str) :
    Option Intent × List Effect :=
  let command := pyStrip input
  if command = [] then (none, [])
  else
    let cmd := pyLower command
    let logEff := Effect.log (cmdLogPfx ++ command)
    if openPfx.isPrefixOf cmd = true then
      let appName := pyStrip (pyReplaceFirst cmd openPfx [])
      (some (Intent.openApp appName),
        logEff :: Effect.setStatus (openingStatusPfx ++ appName) ::
          (open_app_by_name env appName appMap).2)
    else if searchPfx.isPrefixOf cmd = true then
      let topic := pyStrip (pyReplaceFirst command searchPfx [])
      (some (Intent.webSearch topic),
        logEff :: Effect.setStatus (searchStatusPfx ++ topic) ::
          safe_open_url env (googleUrlPfx ++ topic))
    else if wikiPfx.isPrefixOf cmd = true then
      let topic := pyStrip (pyReplaceFirst command wikiPfx [])
      (some (Intent.wikipedia topic),
        [logEff, Effect.setStatus (wikiStatusPfx ++ topic), Effect.spawnWiki topic])
    else if playMusicLit.isPrefixOf cmd = true then
      (some Intent.playMusic, logEff :: playMusicEffects env)
    else if pyContains timeLit cmd = true ∧ (pySplitWs cmd).length ≤ 3 then
      (some Intent.timeQuery, [logEff, Effect.speak (timeSpeakPfx ++ env.nowTimeStr)])
    else if chatPfx.isPrefixOf cmd = true ∨ talkPfx.isPrefixOf cmd = true then
      let prompt := pySplitFirstRest command
      (some (Intent.chat prompt),
        [logEff, Effect.setStatus chattingStatus, Effect.spawnChat prompt])
    else
      (some (Intent.chat command),
        [logEff, Effect.setStatus thinkingStatus, Effect.spawnChat command])

/-- A concrete environment (non-Windows host, empty PATH, all launches
succeed) used for evaluating the embedding at concrete inputs. -/
def defaultEnv : Env where
  isWindowsNT := false
  whichFound := fun _ => false
  launchOk := fun _ => true
  programFilesScan := fun _ => []
  musicDirExists := true
  musicDir := ("/home/user/Music").data
  nowTimeStr := ("12:00 PM").data
  openUrlOk := fun _ => true

/-- Like `defaultEnv` but the home Music directory is absent. -/
def envNoMusic : Env := { defaultEnv with musicDirExists := false }

/-- Like `defaultEnv` but every process launch raises. -/
def envLaunchFails : Env := { defaultEnv with launchOk := fun _ => false }

/-!
Speech input adapter and chat responder.
-/

/-- Outcome of the external microphone-capture / recognition interaction
inside `listen_once`: recognized text, or one of the exception classes the
function catches (`sr.WaitTimeoutError`, `sr.UnknownValueError`,
`sr.RequestError`, any other `Exception`). -/
inductive ListenOutcome where
  | recognized (text : Str)
  | waitTimeout
  | unknownValue
  | requestError
  | generalError
deriving DecidableEq, Repr

def recognizedPfx : Str := ("Recognized: ").data
def timeoutMsg : Str := ("Timeout waiting for speech.").data
def unknownMsg : Str := ("Could not understand audio.").data
def requestErrMsg : Str := ("Could not request results; network error:").data
def generalErrMsg : Str := ("General listen error:").data

/-- `listen_once(timeout, phrase_time_limit)`: returns the recognized text or
`None`, plus the console diagnostics printed.  Every failure class is caught
inside the function, so the embedding is a total function: no exception
reaches the caller. -/
def listen_once : ListenOutcome → Option Str × List Str
  | ListenOutcome.recognized t => (some t, [recognizedPfx ++ t])
  | ListenOutcome.waitTimeout => (none, [timeoutMsg])
  | ListenOutcome.unknownValue => (none, [unknownMsg])
  | ListenOutcome.requestError => (none, [requestErrMsg])
  | ListenOutcome.generalError => (none, [generalErrMsg])

def howAreYouKey : Str := ("how are you").data
def yourNameKey : Str := ("your name").data
def jokeKey : Str := ("joke").data
def funnyKey : Str := ("funny").data
def helpKey : Str := ("help").data
def howKey : Str := ("how").data
def fineReply : Str :=
  ("I'm fine, thanks. I'm here to help you with coding, apps, and questions.").data
def nameReply : Str := ("My name is VoiceKit.").data
def jokeReply : Str :=
  ("Why do programmers prefer dark mode? Because light attracts bugs!").data
def helpReply : Str :=
  ("Tell me what you want: open an app, search something, or chat with me.").data
def genericReply : Str :=
  ("That's interesting. I can search Wikipedia or Google for detailed answers.").data

/-- `ai_chat_local(prompt)`.  `useOpenai` models the `USE_OPENAI` global and
`openaiReply` the remote call's result (`none` = the call raised, falling
back to the local rules). -/
def ai_chat_local (useOpenai : Bool) (openaiReply : Option Str) (prompt : Str) : Str :=
  match (if useOpenai then openaiReply else none) with
  | some r => pyStrip r
  | none =>
    let lp := pyLower prompt
    if pyContains howAreYouKey lp = true then fineReply
    else if pyContains yourNameKey lp = true then nameReply
    else if pyContains jokeKey lp = true ∨ pyContains funnyKey lp = true then jokeReply
    else if pyContains helpKey lp = true ∨ pyContains howKey lp = true then helpReply
    else genericReply

/-!
Mapping store (`load_app_map` / `save_app_map`).  The backing file is
modelled as its text content.  The serializer models CPython
`json.dumps(mapping, indent=2)` for string-to-string mappings (its exact
output format: `ensure_ascii` escaping, two-space indent, `": "` key
separator, `",\n"` item separator); the parser models `json.loads`
restricted to string-object documents, failure modelling the exception
that `load_app_map` swallows.
-/

def quoteChar : Char := Char.ofNat 34
def backslashChar : Char := '\\'
def lbraceChar : Char := Char.ofNat 123
def rbraceChar : Char := Char.ofNat 125

def hexDigitChar (n : Nat) : Char :=
  if n < 10 then Char.ofNat (48 + n) else Char.ofNat (87 + n)

def hex4 (n : Nat) : Str :=
  [hexDigitChar (n / 4096 % 16), hexDigitChar (n / 256 % 16),
   hexDigitChar (n / 16 % 16), hexDigitChar (n % 16)]

def uEscape (n : Nat) : Str := backslashChar :: ('u') :: hex4 n

/-- CPython per-character string escaping with `ensure_ascii=True`
(`py_encode_basestring_ascii`): quote and backslash get two-character
escapes; BS, HT, LF, FF, CR get short escapes; every other character below
0x20 or at/above 0x7f becomes `\uXXXX` (a surrogate pair above 0xffff);
printable ASCII passes through. -/
def escChar (c : Char) : Str :=
  if c = quoteChar then [backslashChar, quoteChar]
  else if c = backslashChar then [backslashChar, backslashChar]
  else if c = Char.ofNat 8 then [backslashChar, 'b']
  else if c = '\t' then [backslashChar, 't']
  else if c = '\n' then [backslashChar, 'n']
  else if c = Char.ofNat 12 then [backslashChar, 'f']
  else if c = '\r' then [backslashChar, 'r']
  else if c.toNat < 32 then uEscape c.toNat
  else if c.toNat < 127 then [c]
  else if c.toNat < 65536 then uEscape c.toNat
  else uEscape (55296 + (c.toNat - 65536) / 1024) ++
       uEscape (56320 + (c.toNat - 65536) % 1024)

def escapeChars : Str → Str
  | [] => []
  | c :: cs => escChar c ++ escapeChars cs

/-- A JSON string literal: `"` + escaped characters + `"`. -/
def encStr (s : Str) : Str := quoteChar :: (escapeChars s ++ [quoteChar])

/-- One `indent=2` object member: two spaces, key, `": "`, value. -/
def memberStr (p : Str × Str) : Str :=
  (' ') :: (' ') :: (encStr p.1 ++ (':') :: (' ') :: encStr p.2)

/-- Members of a nonempty object, `",\n"`-separated, closed by `"\n}"`. -/
def dumpTail : List (Str × Str) → Str
  | [] => ['\n', rbraceChar]
  | [p] => memberStr p ++ ['\n', rbraceChar]
  | p :: q :: ps => memberStr p ++ (',') :: ('\n') :: dumpTail (q :: ps)

/-- CPython `json.dumps(m, indent=2)` for a string-to-string mapping. -/
def json_dumps_indent2 (m : List (Str × Str)) : Str :=
  match m with
  | [] => [lbraceChar, rbraceChar]
  | _ :: _ => lbraceChar :: ('\n') :: dumpTail m

/-- `save_app_map(mapping)`: the text written to the backing file. -/
def save_app_map (m : List (Str × Str)) : Str := json_dumps_indent2 m

def jsonWs (c : Char) : Bool := c = ' ' || c = '\t' || c = '\n' || c = '\r'

def skipWs (s : Str) : Str := s.dropWhile jsonWs

def expectChar (c : Char) : Str → Option Str
  | [] => none
  | x :: rest => if x = c then some rest else none

def parseHexDigit (c : Char) : Option Nat :=
  if 48 ≤ c.toNat ∧ c.toNat ≤ 57 then some (c.toNat - 48)
  else if 97 ≤ c.toNat ∧ c.toNat ≤ 102 then some (c.toNat - 87)
  else if 65 ≤ c.toNat ∧ c.toNat ≤ 70 then some (c.toNat - 55)
  else none

def parseHex4 : Str → Option (Nat × Str)
  | a :: b :: c :: d :: rest =>
    match parseHexDigit a, parseHexDigit b, parseHexDigit c, parseHexDigit d with
    | some x, some y, some z, some w => some (x * 4096 + y * 256 + z * 16 + w, rest)
    | _, _, _, _ => none
  | _ => none

/-- One JSON string escape after the backslash, including `\uXXXX` and
surrogate-pair recombination as `json.loads` performs it. -/
def parseEscape : Str → Option (Str × Str)
  | [] => none
  | c :: rest =>
    if c = quoteChar then some ([quoteChar], rest)
    else if c = backslashChar then some ([backslashChar], rest)
    else if c = '/' then some (['/'], rest)
    else if c = 'b' then some ([Char.ofNat 8], rest)
    else if c = 'f' then some ([Char.ofNat 12], rest)
    else if c = 'n' then some (['\n'], rest)
    else if c = 'r' then some (['\r'], rest)
    else if c = 't' then some (['\t'], rest)
    else if c = 'u' then
      match parseHex4 rest with
      | none => none
      | some (n, rest2) =>
        if 55296 ≤ n ∧ n ≤ 56319 then
          match rest2 with
          | c1 :: c2 :: rest3 =>
            if c1 = backslashChar ∧ c2 = 'u' then
              match parseHex4 rest3 with
              | none => some ([Char.ofNat n], rest2)
              | some (n2, rest4) =>
                if 56320 ≤ n2 ∧ n2 ≤ 57343 then
                  some ([Char.ofNat (65536 + (n - 55296) * 1024 + (n2 - 56320))], rest4)
                else some ([Char.ofNat n], rest2)
            else some ([Char.ofNat n], rest2)
          | _ => some ([Char.ofNat n], rest2)
        else some ([Char.ofNat n], rest2)
    else none

/-- JSON string-literal body (after the opening quote), fuel-bounded; one
character of input is consumed per step, so `fuel` at least the input
length suffices. -/
def parseStrAux : Nat → Str → Option (Str × Str)
  | 0, _ => none
  | _ + 1, [] => none
  | fuel + 1, c :: rest =>
    if c = quoteChar then some ([], rest)
    else if c = backslashChar then
      match parseEscape rest with
      | some (cs, rest2) =>
        match parseStrAux fuel rest2 with
        | some (s, r) => some (cs ++ s, r)
        | none => none
      | none => none
    else
      match parseStrAux fuel rest with
      | some (s, r) => some (c :: s, r)
      | none => none

/-- One `"key": "value"` member (leading whitespace allowed). -/
def parseMember (fuel : Nat) (s : Str) : Option ((Str × Str) × Str) :=
  match expectChar quoteChar (skipWs s) with
  | none => none
  | some rest =>
    match parseStrAux fuel rest with
    | none => none
    | some (k, rest2) =>
      match expectChar (':') (skipWs rest2) with
      | none => none
      | some rest3 =>
        match expectChar quoteChar (skipWs rest3) with
        | none => none
        | some rest4 =>
          match parseStrAux fuel rest4 with
          | none => none
          | some (v, rest5) => some ((k, v), rest5)

/-- Members of a nonempty object up to and including the closing brace. -/
def parseMembersAux : Nat → Str → Option (List (Str × Str) × Str)
  | 0, _ => none
  | fuel + 1, s =>
    match parseMember (fuel + 1) s with
    | none => none
    | some (kv, rest) =>
      match skipWs rest with
      | c :: rest2 =>
        if c = ',' then
          match parseMembersAux fuel rest2 with
          | some (items, r) => some (kv :: items, r)
          | none => none
        else if c = rbraceChar then some ([kv], rest2)
        else none
      | [] => none

/-- `json.loads` on a string-to-string object document (`none` models the
exception raised on anything unparseable). -/
def json_loads_strmap (s : Str) : Option (List (Str × Str)) :=
  match skipWs s with
  | [] => none
  | c :: rest =>
    if c = lbraceChar then
      match skipWs rest with
      | [] => none
      | c2 :: rest2 =>
        if c2 = rbraceChar then (if skipWs rest2 = [] then some [] else none)
        else
          match parseMembersAux s.length rest with
          | some (items, rest3) => if skipWs rest3 = [] then some items else none
          | none => none
    else none

/-- `load_app_map()`: `none` file content models an absent backing file;
an unparseable file yields the empty mapping. -/
def load_app_map (fileContent : Option Str) : List (Str × Str) :=
  match fileContent with
  | none => []
  | some txt =>
    match json_loads_strmap txt with
    | some m => m
    | none => []
/-- Printable character (no control characters), the claim's hypothesis on
keys and values. -/
def pyPrintable (c : Char) : Bool :=
  decide (32 ≤ c.toNat) && decide (c.toNat ≠ 127)

def strPrintable (s : Str) : Bool := s.all pyPrintable

def mapPrintable (m : List (Str × Str)) : Bool :=
  m.all (fun p => strPrintable p.1 && strPrintable p.2)

/-- The serialized text that follows a member: either the final `"\n}"` or
the `",\n"` separator and the remaining members. -/
def dumpSep : List (Str × Str) → Str
  | [] => [('\n'), rbraceChar]
  | q :: ps => (',') :: ('\n') :: dumpTail (q :: ps)

/-!
Evaluation checks of the embedding at concrete inputs.
-/

example : pyStrip ((" open chrome  ").data) = ("open chrome").data := by decide
example : pyLower (("Search Python").data) = ("search python").data := by decide
example : pySplitWs (("what time is it now").data) =
    [("what").data, ("time").data, ("is").data, ("it").data, ("now").data] := by decide
example : pyReplaceFirst (("Search  Python").data) (("search ").data) [] =
    ("Search  Python").data := by decide
example : pySplitFirstRest (("chat how are you").data) = ("how are you").data := by decide
example : (handle_command_text defaultEnv [] (("time now").data)).1 =
    some Intent.timeQuery := by decide
example : (handle_command_text defaultEnv [] (("what time is it now").data)).1 =
    some (Intent.chat (("what time is it now").data)) := by decide
example : (handle_command_text defaultEnv [] (("open chrome").data)).1 =
    some (Intent.openApp (("chrome").data)) := by decide
example : open_app_by_name defaultEnv (("ide").data)
      [((("ide").data), (("mytool --open").data))] =
    (true, [Effect.launch (LaunchAction.popenArgv [("mytool").data, ("--open").data]),
      Effect.speak (openingPfx ++ ("ide").data)]) := by decide
example : load_app_map (some (save_app_map
    [((("ide").data), (("mytool --open").data))])) =
    [((("ide").data), (("mytool --open").data))] := by decide
example : load_app_map (some (save_app_map [])) = ([] : List (Str × Str)) := by decide
example : load_app_map (some (save_app_map
    [((("a").data), (quoteChar :: backslashChar :: ('\n') :: (Char.ofNat 233) :: [])),
     ((("b").data), [Char.ofNat 128512])])) =
    [((("a").data), (quoteChar :: backslashChar :: ('\n') :: (Char.ofNat 233) :: [])),
     ((("b").data), [Char.ofNat 128512])] := by decide

/-!
Helper lemmas about the string model.
-/

lemma prefix_cons_exists {a : Char} {p s : Str} (h : (a :: p).isPrefixOf s = true) :
    ∃ t, s = a :: t := by
  cases s with
  | nil => simp [List.isPrefixOf] at h
  | cons b t => exact ⟨t, by rw [List.isPrefixOf_iff_prefix] at h; rw [(List.cons_prefix_cons.mp h).1]⟩

lemma isPrefixOf_false_of_head_ne {a b : Char} (p t : Str) (hab : a ≠ b) :
    (a :: p).isPrefixOf (b :: t) = false := by
  rw [Bool.eq_false_iff]
  intro hc
  rw [List.isPrefixOf_iff_prefix] at hc
  exact hab (List.cons_prefix_cons.mp hc).1

lemma pyReplaceFirst_prefix {p s : Str} (rep : Str) (h : p.isPrefixOf s = true) :
    pyReplaceFirst s p rep = rep ++ s.drop p.length := by
  cases s with
  | nil =>
    cases p with
    | nil => simp [pyReplaceFirst]
    | cons c cs => simp [List.isPrefixOf] at h
  | cons c rest => simp [pyReplaceFirst, h]

lemma pyLower_isPrefixOf {p s : Str} (h : p.isPrefixOf s = true) :
    (pyLower p).isPrefixOf (pyLower s) = true := by
  rw [List.isPrefixOf_iff_prefix] at h ⊢
  exact h.map Char.toLower

lemma pyLower_eq_nil {s : Str} : pyLower s = [] ↔ s = [] := by
  simp [pyLower]

/-!
Claim theorems.
-/

/-- Claim C8: for every input that is empty or whitespace-only, the command
handler performs no action at all: no intent is dispatched and the effect
trace is empty (no log append, no status change, no speech, no launch). -/
theorem blank_input_is_noop (env : Env) (appMap : List (Str × Str)) (input : Str)
    (h : pyStrip input = []) :
    handle_command_text env appMap input = (none, []) := by
  simp [handle_command_text, h]

theorem blank_input_is_noop_witness :
    pyStrip (("   ").data) = [] ∧
      handle_command_text defaultEnv [] (("   ").data) = (none, []) :=
  ⟨by decide, blank_input_is_noop defaultEnv [] (("   ").data) (by decide)⟩

/-- Claim C6: `listen_once` yields `None` (and, being a total function, never
propagates an error) in all three failure cases — timeout with no speech,
unintelligible audio, network/service failure — and the diagnostic printed
for unintelligible audio differs from the one for a network failure. -/
theorem listen_once_failures_return_none :
    (listen_once ListenOutcome.waitTimeout).1 = none ∧
    (listen_once ListenOutcome.unknownValue).1 = none ∧
    (listen_once ListenOutcome.requestError).1 = none ∧
    (listen_once ListenOutcome.generalError).1 = none ∧
    (listen_once ListenOutcome.unknownValue).2 = [unknownMsg] ∧
    (listen_once ListenOutcome.requestError).2 = [requestErrMsg] ∧
    unknownMsg ≠ requestErrMsg := by
  refine ⟨rfl, rfl, rfl, rfl, rfl, rfl, by decide⟩

/-- Claim C7: interpreting `"chat how are you"` yields the Chat intent with
argument `"how are you"`, and the local chat fallback on that argument
returns the fixed "I'm fine..." reply (its substring rules are checked in
order, so the `"how are you"` rule fires before the `"help"`/`"how"` rule
and the generic fallback). -/
theorem chat_how_are_you_reply :
    (handle_command_text defaultEnv [] (("chat how are you").data)).1 =
      some (Intent.chat (("how are you").data)) ∧
    ai_chat_local false none (("how are you").data) = fineReply ∧
    pyContains howKey (pyLower (("how are you").data)) = true := by
  refine ⟨by decide, by decide, by decide⟩

/-- Claim C2: when the lowercased, trimmed app name is a key of the mapping,
`open_app_by_name` launches exactly the stored command (shell-interpreted on
Windows, argument-vector elsewhere) and returns `true`; the effect trace
shows no alias-table, PATH or directory-scan activity.  In particular, with
mapping `{"ide": "mytool --open"}`, resolving `"ide"` launches
`mytool --open` and returns `true`. -/
theorem mapping_hit_uses_stored_command (env : Env) (name cmd : Str)
    (m : List (Str × Str))
    (hlook : List.lookup (pyStrip (pyLower name)) m = some cmd)
    (hok : env.launchOk (mappedAction env cmd) = true) :
    open_app_by_name env name m =
      (true, [Effect.launch (mappedAction env cmd),
        Effect.speak (openingPfx ++ name)]) ∧
    open_app_by_name defaultEnv (("ide").data)
        [((("ide").data), (("mytool --open").data))] =
      (true, [Effect.launch (LaunchAction.popenArgv
          [("mytool").data, ("--open").data]),
        Effect.speak (openingPfx ++ ("ide").data)]) := by
  constructor
  · simp [open_app_by_name, hlook, hok]
  · decide

theorem mapping_hit_uses_stored_command_witness :
    List.lookup (pyStrip (pyLower (("ide").data)))
        [((("ide").data), (("mytool --open").data))] = some (("mytool --open").data) ∧
    open_app_by_name defaultEnv (("ide").data)
        [((("ide").data), (("mytool --open").data))] =
      (true, [Effect.launch (mappedAction defaultEnv (("mytool --open").data)),
        Effect.speak (openingPfx ++ ("ide").data)]) :=
  ⟨by decide,
    (mapping_hit_uses_stored_command defaultEnv (("ide").data) (("mytool --open").data)
      [((("ide").data), (("mytool --open").data))] (by decide) (by decide)).1⟩

/-- Claim C9: when the lowercased, trimmed name is a key of the mapping but
launching the stored command raises, `open_app_by_name` prints a diagnostic,
speaks the failure message and returns `false` immediately — the effect
trace contains no alias-table, PATH or directory-scan attempt, and no
exception propagates (the embedding is total). -/
theorem mapped_launch_failure_no_fallback (env : Env) (name cmd : Str)
    (m : List (Str × Str))
    (hlook : List.lookup (pyStrip (pyLower name)) m = some cmd)
    (hfail : env.launchOk (mappedAction env cmd) = false) :
    open_app_by_name env name m =
      (false, [Effect.consoleLog mapFailLog,
        Effect.speak (failedPfx ++ name ++ dotSfx)]) := by
  simp [open_app_by_name, hlook, hfail]

theorem mapped_launch_failure_no_fallback_witness :
    List.lookup (pyStrip (pyLower (("ide").data)))
        [((("ide").data), (("mytool --open").data))] = some (("mytool --open").data) ∧
    open_app_by_name envLaunchFails (("ide").data)
        [((("ide").data), (("mytool --open").data))] =
      (false, [Effect.consoleLog mapFailLog,
        Effect.speak (failedPfx ++ ("ide").data ++ dotSfx)]) :=
  ⟨by decide,
    mapped_launch_failure_no_fallback envLaunchFails (("ide").data)
      (("mytool --open").data) [((("ide").data), (("mytool --open").data))]
      (by decide) (by decide)⟩

/-- Claim C1: for every input whose lowercased, trimmed form starts with
`"open "`, the handler classifies it as OpenApp and passes to
`open_app_by_name`, as the app name, exactly the remainder of that
lowercased input after the `"open "` prefix, trimmed of surrounding
whitespace. -/
theorem open_prefix_extracts_trimmed_remainder (env : Env) (m : List (Str × Str))
    (input : Str)
    (h : openPfx.isPrefixOf (pyLower (pyStrip input)) = true) :
    (handle_command_text env m input).1 =
      some (Intent.openApp (pyStrip ((pyLower (pyStrip input)).drop openPfx.length))) ∧
    (handle_command_text env m input).2 =
      Effect.log (cmdLogPfx ++ pyStrip input) ::
        Effect.setStatus (openingStatusPfx ++
          pyStrip ((pyLower (pyStrip input)).drop openPfx.length)) ::
        (open_app_by_name env
          (pyStrip ((pyLower (pyStrip input)).drop openPfx.length)) m).2 := by
  have hne : ¬ pyStrip input = [] := by
    intro h0
    rw [h0] at h
    exact absurd h (by decide)
  have hrep := pyReplaceFirst_prefix (p := openPfx) [] h
  simp [handle_command_text, hne, h, hrep]

theorem open_prefix_extracts_trimmed_remainder_witness :
    openPfx.isPrefixOf (pyLower (pyStrip (("Open  Chrome ").data))) = true ∧
    (handle_command_text defaultEnv [] (("Open  Chrome ").data)).1 =
      some (Intent.openApp (pyStrip
        ((pyLower (pyStrip (("Open  Chrome ").data))).drop openPfx.length))) :=
  ⟨by decide,
    (open_prefix_extracts_trimmed_remainder defaultEnv [] (("Open  Chrome ").data)
      (by decide)).1⟩

/-- Claim C4 counterexample: for the input `"Search Python"` the lowercased,
trimmed form starts with `"search "`, yet the classified WebSearch argument
is the whole string `"Search Python"`, not the remainder `"Python"` after
the prefix — `command.replace("search ", "", 1)` finds no lowercase
occurrence in the original-case string, so it removes nothing. -/
theorem search_mixed_case_counterexample :
    (handle_command_text defaultEnv [] (("Search Python").data)).1 =
      some (Intent.webSearch (("Search Python").data)) ∧
    ¬ (handle_command_text defaultEnv [] (("Search Python").data)).1 =
      some (Intent.webSearch (("Python").data)) := by
  refine ⟨by decide, by decide⟩

/-- Claim C4, amended: for every input whose TRIMMED ORIGINAL form starts
with the exact lowercase prefix `"search "`, the handler classifies it as
WebSearch with argument equal to the remainder of the trimmed original
input after that prefix, trimmed of surrounding whitespace and with its
original character case preserved (the query URL is built from it). -/
theorem search_lowercase_prefix_amended (env : Env) (m : List (Str × Str))
    (input : Str)
    (h : searchPfx.isPrefixOf (pyStrip input) = true) :
    (handle_command_text env m input).1 =
      some (Intent.webSearch (pyStrip ((pyStrip input).drop searchPfx.length))) ∧
    (handle_command_text env m input).2 =
      Effect.log (cmdLogPfx ++ pyStrip input) ::
        Effect.setStatus (searchStatusPfx ++
          pyStrip ((pyStrip input).drop searchPfx.length)) ::
        safe_open_url env (googleUrlPfx ++
          pyStrip ((pyStrip input).drop searchPfx.length)) := by
  have hne : ¬ pyStrip input = [] := by
    intro h0
    rw [h0] at h
    exact absurd h (by decide)
  have hlow : searchPfx.isPrefixOf (pyLower (pyStrip input)) = true := by
    have h2 := pyLower_isPrefixOf h
    rwa [show pyLower searchPfx = searchPfx by decide] at h2
  have hlow' : (('s') :: (("earch ").data)).isPrefixOf (pyLower (pyStrip input)) = true := by
    rwa [show searchPfx = ('s') :: (("earch ").data) by decide] at hlow
  obtain ⟨t, ht⟩ := prefix_cons_exists hlow'
  have hopen : openPfx.isPrefixOf (pyLower (pyStrip input)) = false := by
    rw [ht, show openPfx = ('o') :: (("pen ").data) by decide]
    exact isPrefixOf_false_of_head_ne _ _ (by decide)
  have hrep := pyReplaceFirst_prefix (p := searchPfx) [] h
  simp [handle_command_text, hne, hopen, hlow, hrep]

theorem search_lowercase_prefix_amended_witness :
    searchPfx.isPrefixOf (pyStrip ((" search Python tutorial ").data)) = true ∧
    (handle_command_text defaultEnv [] ((" search Python tutorial ").data)).1 =
      some (Intent.webSearch (pyStrip
        ((pyStrip ((" search Python tutorial ").data)).drop searchPfx.length))) :=
  ⟨by decide,
    (search_lowercase_prefix_amended defaultEnv [] ((" search Python tutorial ").data)
      (by decide)).1⟩

/-- Claim C10: an input classified as PlayMusic is handled by opening the
user's home Music directory; if that directory does not exist, no process
is launched and the fixed "Music folder not found." message is spoken; if
it exists, the directory is opened (`os.startfile` on Windows,
`xdg-open` elsewhere) and a launch failure is caught with a spoken message —
in every case the embedding is a total function, so no exception reaches
the caller. -/
theorem play_music_branch (env : Env) (m : List (Str × Str)) (input : Str)
    (h : playMusicLit.isPrefixOf (pyLower (pyStrip input)) = true) :
    ((handle_command_text env m input).1 = some Intent.playMusic) ∧
    ((handle_command_text env m input).2 =
      Effect.log (cmdLogPfx ++ pyStrip input) :: playMusicEffects env) ∧
    (env.musicDirExists = false →
      playMusicEffects env = [Effect.speak musicNotFound]) ∧
    (env.musicDirExists = true → env.launchOk (musicAction env) = true →
      playMusicEffects env =
        [Effect.launch (musicAction env), Effect.speak musicOpenMsg]) ∧
    (env.musicDirExists = true → env.launchOk (musicAction env) = false →
      playMusicEffects env =
        [Effect.consoleLog musicErrLog, Effect.speak musicFailMsg]) := by
  have hne : ¬ pyStrip input = [] := by
    intro h0
    rw [h0] at h
    exact absurd h (by decide)
  have hp : (('p') :: (("lay music").data)).isPrefixOf (pyLower (pyStrip input)) = true := by
    rwa [show playMusicLit = ('p') :: (("lay music").data) by decide] at h
  obtain ⟨t, ht⟩ := prefix_cons_exists hp
  have hopen : openPfx.isPrefixOf (pyLower (pyStrip input)) = false := by
    rw [ht, show openPfx = ('o') :: (("pen ").data) by decide]
    exact isPrefixOf_false_of_head_ne _ _ (by decide)
  have hsearch : searchPfx.isPrefixOf (pyLower (pyStrip input)) = false := by
    rw [ht, show searchPfx = ('s') :: (("earch ").data) by decide]
    exact isPrefixOf_false_of_head_ne _ _ (by decide)
  have hwiki : wikiPfx.isPrefixOf (pyLower (pyStrip input)) = false := by
    rw [ht, show wikiPfx = ('w') :: (("ikipedia ").data) by decide]
    exact isPrefixOf_false_of_head_ne _ _ (by decide)
  refine ⟨?_, ?_, ?_, ?_, ?_⟩
  · simp [handle_command_text, hne, hopen, hsearch, hwiki, h]
  · simp [handle_command_text, hne, hopen, hsearch, hwiki, h]
  · intro hmus; simp [playMusicEffects, hmus]
  · intro hmus hok; simp [playMusicEffects, hmus, hok]
  · intro hmus hok; simp [playMusicEffects, hmus, hok]

theorem play_music_branch_witness :
    playMusicLit.isPrefixOf (pyLower (pyStrip (("play music").data))) = true ∧
    envNoMusic.musicDirExists = false ∧
    ((handle_command_text envNoMusic [] (("play music").data)).1 =
      some Intent.playMusic) ∧
    playMusicEffects envNoMusic = [Effect.speak musicNotFound] :=
  ⟨by decide, by decide,
    (play_music_branch envNoMusic [] (("play music").data) (by decide)).1,
    (play_music_branch envNoMusic [] (("play music").data) (by decide)).2.2.1 (by decide)⟩

/-- Claim C3: the handler classifies an input as TimeQuery exactly when the
higher-priority prefix rules (open/search/wikipedia/play music) all fail on
the lowercased, trimmed input and that input contains the substring
`"time"` and has at most 3 whitespace-separated tokens; in particular
`"time now"` is a TimeQuery while `"what time is it now"` (5 tokens) falls
through to Chat. -/
theorem time_rule_boundary :
    (∀ (env : Env) (m : List (Str × Str)) (s : Str),
      (handle_command_text env m s).1 = some Intent.timeQuery ↔
        (pyLower (pyStrip s) ≠ [] ∧
         openPfx.isPrefixOf (pyLower (pyStrip s)) = false ∧
         searchPfx.isPrefixOf (pyLower (pyStrip s)) = false ∧
         wikiPfx.isPrefixOf (pyLower (pyStrip s)) = false ∧
         playMusicLit.isPrefixOf (pyLower (pyStrip s)) = false ∧
         pyContains timeLit (pyLower (pyStrip s)) = true ∧
         (pySplitWs (pyLower (pyStrip s))).length ≤ 3)) ∧
    (handle_command_text defaultEnv [] (("time now").data)).1 = some Intent.timeQuery ∧
    (handle_command_text defaultEnv [] (("what time is it now").data)).1 =
      some (Intent.chat (("what time is it now").data)) := by
  refine ⟨?_, by decide, by decide⟩
  intro env m s
  by_cases h0 : pyStrip s = []
  · simp [handle_command_text, h0, pyLower]
  · have h0' : ¬ pyLower (pyStrip s) = [] := fun hh => h0 (pyLower_eq_nil.mp hh)
    by_cases h1 : openPfx.isPrefixOf (pyLower (pyStrip s)) = true
    · simp [handle_command_text, h0, h1]
    · rw [Bool.not_eq_true] at h1
      by_cases h2 : searchPfx.isPrefixOf (pyLower (pyStrip s)) = true
      · simp [handle_command_text, h0, h1, h2]
      · rw [Bool.not_eq_true] at h2
        by_cases h3 : wikiPfx.isPrefixOf (pyLower (pyStrip s)) = true
        · simp [handle_command_text, h0, h1, h2, h3]
        · rw [Bool.not_eq_true] at h3
          by_cases h4 : playMusicLit.isPrefixOf (pyLower (pyStrip s)) = true
          · simp [handle_command_text, h0, h1, h2, h3, h4]
          · rw [Bool.not_eq_true] at h4
            by_cases h5 : pyContains timeLit (pyLower (pyStrip s)) = true
            · by_cases h6 : (pySplitWs (pyLower (pyStrip s))).length ≤ 3
              · simp [handle_command_text, h0, h0', h1, h2, h3, h4, h5, h6]
              · simp only [handle_command_text]
                simp only [h0, if_neg, h1, h2, h3, h4, h5, h6]
                split <;> simp [h6]
                split <;> simp
            · rw [Bool.not_eq_true] at h5
              simp only [handle_command_text]
              simp only [h0, if_neg, h1, h2, h3, h4, h5]
              split <;> simp [h5]
              split <;> simp

/-!
Round-trip lemmas for the mapping store.
-/

lemma char_not_surrogate (c : Char) : c.toNat < 55296 ∨ 57344 ≤ c.toNat := by
  have h : c.toNat < 55296 ∨ (57344 ≤ c.toNat ∧ c.toNat < 1114112) := c.valid
  rcases h with h | h
  · exact Or.inl h
  · exact Or.inr h.1

lemma char_toNat_lt (c : Char) : c.toNat < 1114112 := by
  have h : c.toNat < 55296 ∨ (57344 ≤ c.toNat ∧ c.toNat < 1114112) := c.valid
  rcases h with h | h
  · omega
  · exact h.2

lemma parseHexDigit_hexDigitChar (d : Nat) (h : d < 16) :
    parseHexDigit (hexDigitChar d) = some d := by
  interval_cases d <;> decide

lemma parseHex4_hex4 (n : Nat) (h : n < 65536) (rest : Str) :
    parseHex4 (hex4 n ++ rest) = some (n, rest) := by
  have h1 : n / 4096 % 16 < 16 := Nat.mod_lt _ (by omega)
  have h2 : n / 256 % 16 < 16 := Nat.mod_lt _ (by omega)
  have h3 : n / 16 % 16 < 16 := Nat.mod_lt _ (by omega)
  have h4 : n % 16 < 16 := Nat.mod_lt _ (by omega)
  simp only [hex4, List.cons_append, List.nil_append, parseHex4,
    parseHexDigit_hexDigitChar _ h1, parseHexDigit_hexDigitChar _ h2,
    parseHexDigit_hexDigitChar _ h3, parseHexDigit_hexDigitChar _ h4]
  congr 1
  congr 1
  omega

/-- Every character's `escChar` encoding is either the character itself
(plain printable ASCII) or a backslash escape that `parseEscape` decodes
back to exactly that character. -/
lemma parseEscape_escChar (c : Char) (t : Str) :
    (escChar c = [c] ∧ c ≠ quoteChar ∧ c ≠ backslashChar) ∨
    (∃ e, escChar c = backslashChar :: e ∧ parseEscape (e ++ t) = some ([c], t)) := by
  by_cases hq : c = quoteChar
  · subst hq
    exact Or.inr ⟨[quoteChar], by decide, by simp +decide [parseEscape]⟩
  by_cases hb : c = backslashChar
  · subst hb
    exact Or.inr ⟨[backslashChar], by decide, by simp +decide [parseEscape]⟩
  by_cases h8 : c = Char.ofNat 8
  · subst h8
    exact Or.inr ⟨[('b')], by decide, by simp +decide [parseEscape]⟩
  by_cases h9 : c = '\t'
  · subst h9
    exact Or.inr ⟨[('t')], by decide, by simp +decide [parseEscape]⟩
  by_cases h10 : c = '\n'
  · subst h10
    exact Or.inr ⟨[('n')], by decide, by simp +decide [parseEscape]⟩
  by_cases h12 : c = Char.ofNat 12
  · subst h12
    exact Or.inr ⟨[('f')], by decide, by simp +decide [parseEscape]⟩
  by_cases h13 : c = '\r'
  · subst h13
    exact Or.inr ⟨[('r')], by decide, by simp +decide [parseEscape]⟩
  by_cases hlt32 : c.toNat < 32
  · refine Or.inr ⟨('u') :: hex4 c.toNat, ?_, ?_⟩
    · simp [escChar, hq, hb, h8, h9, h10, h12, h13, hlt32, uEscape]
    · have hns : ¬ (55296 ≤ c.toNat ∧ c.toNat ≤ 56319) := by omega
      simp only [List.cons_append]
      simp +decide [parseEscape, parseHex4_hex4 c.toNat (by omega) t, hns,
        Char.ofNat_toNat]
  by_cases hlt127 : c.toNat < 127
  · exact Or.inl ⟨by simp [escChar, hq, hb, h8, h9, h10, h12, h13, hlt32, hlt127], hq, hb⟩
  by_cases hlt65536 : c.toNat < 65536
  · refine Or.inr ⟨('u') :: hex4 c.toNat, ?_, ?_⟩
    · simp [escChar, hq, hb, h8, h9, h10, h12, h13, hlt32, hlt127, hlt65536, uEscape]
    · have hsur := char_not_surrogate c
      have hns : ¬ (55296 ≤ c.toNat ∧ c.toNat ≤ 56319) := by omega
      simp only [List.cons_append]
      simp +decide [parseEscape, parseHex4_hex4 c.toNat (by omega) t, hns,
        Char.ofNat_toNat]
  · have hlt := char_toNat_lt c
    refine Or.inr ⟨('u') :: (hex4 (55296 + (c.toNat - 65536) / 1024) ++
      (backslashChar :: ('u') :: hex4 (56320 + (c.toNat - 65536) % 1024))), ?_, ?_⟩
    · simp [escChar, hq, hb, h8, h9, h10, h12, h13, hlt32, hlt127, hlt65536, uEscape]
    · have hm := Nat.mod_lt (c.toNat - 65536) (show 0 < 1024 by omega)
      have hhi : 55296 + (c.toNat - 65536) / 1024 < 65536 := by omega
      have hlo : 56320 + (c.toNat - 65536) % 1024 < 65536 := by omega
      have h1 : 55296 ≤ 55296 + (c.toNat - 65536) / 1024 ∧
          55296 + (c.toNat - 65536) / 1024 ≤ 56319 := by omega
      have h2 : 56320 ≤ 56320 + (c.toNat - 65536) % 1024 ∧
          56320 + (c.toNat - 65536) % 1024 ≤ 57343 := by omega
      have harith : 65536 + (55296 + (c.toNat - 65536) / 1024 - 55296) * 1024 +
          (56320 + (c.toNat - 65536) % 1024 - 56320) = c.toNat := by omega
      simp only [List.cons_append, List.append_assoc]
      simp +decide [parseEscape, parseHex4_hex4 _ hhi, parseHex4_hex4 _ hlo,
        h1.1, h1.2, h2.1, h2.2, harith, Char.ofNat_toNat]
      have harith2 : 65536 + (c.toNat - 65536) / 1024 * 1024 +
          (c.toNat - 65536) % 1024 = c.toNat := by omega
      rw [harith2, Char.ofNat_toNat]

/-- Parsing inverts string escaping: the parser consumes the escaped body
and the closing quote and returns the original string. -/
lemma parseStrAux_enc (s : Str) : ∀ (fuel : Nat) (rest : Str),
    (escapeChars s).length < fuel →
    parseStrAux fuel (escapeChars s ++ quoteChar :: rest) = some (s, rest) := by
  induction s with
  | nil =>
    intro fuel rest h
    cases fuel with
    | zero => exact absurd h (Nat.not_lt_zero _)
    | succ f => simp [escapeChars, parseStrAux]
  | cons c cs ih =>
    intro fuel rest h
    rw [escapeChars] at h ⊢
    rcases parseEscape_escChar c (escapeChars cs ++ quoteChar :: rest) with
      ⟨hE, hq, hb⟩ | ⟨e, hE, hPE⟩
    · rw [hE] at h ⊢
      cases fuel with
      | zero => exact absurd h (Nat.not_lt_zero _)
      | succ f =>
        have hcs : (escapeChars cs).length < f := by
          simp [List.length_append] at h; omega
        simp only [List.cons_append, List.nil_append]
        simp [parseStrAux, hq, hb, ih f rest hcs]
    · rw [hE] at h ⊢
      cases fuel with
      | zero => exact absurd h (Nat.not_lt_zero _)
      | succ f =>
        have hcs : (escapeChars cs).length < f := by
          simp [List.length_append] at h; omega
        simp only [List.cons_append, List.append_assoc]
        simp +decide [parseStrAux, hPE, ih f rest hcs]

lemma skipWs_cons_of_ws {c : Char} (h : jsonWs c = true) (s : Str) :
    skipWs (c :: s) = skipWs s := by
  simp [skipWs, List.dropWhile_cons, h]

lemma skipWs_cons_of_not_ws {c : Char} (h : jsonWs c = false) (s : Str) :
    skipWs (c :: s) = c :: s := by
  simp [skipWs, List.dropWhile_cons, h]

lemma memberStr_append (p : Str × Str) (X : Str) :
    memberStr p ++ X = (' ') :: (' ') :: quoteChar ::
      (escapeChars p.1 ++ quoteChar :: (':') :: (' ') :: quoteChar ::
        (escapeChars p.2 ++ quoteChar :: X)) := by
  simp [memberStr, encStr]

lemma dumpTail_cons (p : Str × Str) (ps : List (Str × Str)) :
    dumpTail (p :: ps) =
      memberStr p ++ (match ps with
        | [] => [('\n'), rbraceChar]
        | _ :: _ => (',') :: ('\n') :: dumpTail ps) := by
  cases ps <;> simp [dumpTail]

/-- Parsing inverts the serialization of one `"key": "value"` member. -/
lemma parseMember_enc (fuel : Nat) (p : Str × Str) (rest : Str)
    (hk : (escapeChars p.1).length < fuel) (hv : (escapeChars p.2).length < fuel) :
    parseMember fuel (('\n') :: (memberStr p ++ rest)) = some (p, rest) := by
  have h1 := parseStrAux_enc p.1 fuel
    ((':') :: (' ') :: quoteChar :: (escapeChars p.2 ++ quoteChar :: rest)) hk
  have h2 := parseStrAux_enc p.2 fuel rest hv
  rw [memberStr_append]
  simp +decide [parseMember, skipWs, List.dropWhile_cons, expectChar, h1, h2]

/-- Parsing inverts the serialization of a nonempty member list together
with the closing brace. -/
lemma parseMembersAux_enc : ∀ (ps : List (Str × Str)) (p : Str × Str)
    (fuel : Nat) (rest : Str),
    (dumpTail (p :: ps)).length < fuel →
    parseMembersAux fuel (('\n') :: (dumpTail (p :: ps) ++ rest)) = some (p :: ps, rest) := by
  intro ps
  induction ps with
  | nil =>
    intro p fuel rest h
    cases fuel with
    | zero => exact absurd h (Nat.not_lt_zero _)
    | succ f =>
      rw [dumpTail_cons] at h
      have hk : (escapeChars p.1).length < f + 1 := by
        rw [memberStr_append] at h
        simp [List.length_append] at h
        omega
      have hv : (escapeChars p.2).length < f + 1 := by
        rw [memberStr_append] at h
        simp [List.length_append] at h
        omega
      have hm := parseMember_enc (f + 1) p (('\n') :: rbraceChar :: rest) hk hv
      have hsk : skipWs (('\n') :: rbraceChar :: rest) = rbraceChar :: rest := by
        simp +decide [skipWs, List.dropWhile_cons]
      have hshape : (('\n') :: (dumpTail (p :: []) ++ rest)) =
          (('\n') :: (memberStr p ++ (('\n') :: rbraceChar :: rest))) := by
        simp [dumpTail]
      rw [hshape]
      simp +decide [parseMembersAux, hm, hsk]
  | cons q ps ih =>
    intro p fuel rest h
    cases fuel with
    | zero => exact absurd h (Nat.not_lt_zero _)
    | succ f =>
      rw [dumpTail_cons] at h
      have hk : (escapeChars p.1).length < f + 1 := by
        rw [memberStr_append] at h
        simp [List.length_append] at h
        omega
      have hv : (escapeChars p.2).length < f + 1 := by
        rw [memberStr_append] at h
        simp [List.length_append] at h
        omega
      have hlen : (dumpTail (q :: ps)).length < f := by
        rw [memberStr_append] at h
        simp [List.length_append] at h
        omega
      have hm := parseMember_enc (f + 1) p
        ((',') :: ('\n') :: (dumpTail (q :: ps) ++ rest)) hk hv
      have hsk : skipWs ((',') :: ('\n') :: (dumpTail (q :: ps) ++ rest)) =
          (',') :: ('\n') :: (dumpTail (q :: ps) ++ rest) := by
        simp +decide [skipWs, List.dropWhile_cons]
      have hih := ih q f rest hlen
      have hshape : (('\n') :: (dumpTail (p :: q :: ps) ++ rest)) =
          (('\n') :: (memberStr p ++ ((',') :: ('\n') :: (dumpTail (q :: ps) ++ rest)))) := by
        simp [dumpTail]
      rw [hshape]
      simp +decide [parseMembersAux, hm, hsk, hih]

lemma dumpTail_cons_sep (p : Str × Str) (ps : List (Str × Str)) :
    dumpTail (p :: ps) = memberStr p ++ dumpSep ps := by
  cases ps <;> simp [dumpTail, dumpSep]

/-- Claim C5: for every mapping with printable string keys (unique, as in a
Python dict) and printable string values, `save_app_map` followed by
`load_app_map` returns a mapping equal to the original. -/
theorem app_map_save_load_roundtrip (m : List (Str × Str))
    (hkeys : (m.map Prod.fst).Nodup) (hprint : mapPrintable m = true) :
    load_app_map (some (save_app_map m)) = m := by
  cases m with
  | nil => decide
  | cons p ps =>
    have hfuel : (dumpTail (p :: ps)).length <
        (lbraceChar :: ('\n') :: dumpTail (p :: ps)).length := by
      simp only [List.length_cons]
      omega
    have hmem := parseMembersAux_enc ps p
      (lbraceChar :: ('\n') :: dumpTail (p :: ps)).length [] hfuel
    rw [List.append_nil] at hmem
    have hsk1 : skipWs (lbraceChar :: ('\n') :: dumpTail (p :: ps)) =
        lbraceChar :: ('\n') :: dumpTail (p :: ps) := by
      simp +decide [skipWs, List.dropWhile_cons]
    have hsk2 : skipWs (('\n') :: dumpTail (p :: ps)) =
        quoteChar :: (escapeChars p.1 ++ quoteChar :: (':') :: (' ') :: quoteChar ::
          (escapeChars p.2 ++ quoteChar :: dumpSep ps)) := by
      rw [dumpTail_cons_sep, memberStr_append]
      simp +decide [skipWs, List.dropWhile_cons]
    simp only [load_app_map, save_app_map, json_dumps_indent2, json_loads_strmap]
    rw [hsk1]
    simp only [hsk2, hmem]
    simp +decide [skipWs]

theorem app_map_save_load_roundtrip_witness :
    (([((("ide").data), (("mytool --open").data))].map
        (Prod.fst (α := Str) (β := Str))).Nodup ∧
      mapPrintable [((("ide").data), (("mytool --open").data))] = true) ∧
    load_app_map (some (save_app_map [((("ide").data), (("mytool --open").data))])) =
      [((("ide").data), (("mytool --open").data))] :=
  ⟨⟨by decide, by decide⟩,
    app_map_save_load_roundtrip [((("ide").data), (("mytool --open").data))]
      (by decide) (by decide)⟩
